import Mathlib

/-!
Verification of the balance-sweep scripts of megaeth-faucet-sender-test.

The repository is a family of near-duplicate scripts that sweep native-token
balances from a list of wallets to one target address.  The core in every
variant is the same sweep decision: given a wallet balance (a non-negative
big integer, in wei), the current fee data and a reserve policy, either skip
the wallet or compute the exact amount to transfer.  This file embeds the
decision procedures, the retry helpers, the per-wallet outcome accounting and
the run orchestration of the variants cited by the claims, and proves or
refutes the stated properties.

Conventions of the embedding:
  - JavaScript BigInt values (wei balances, fee rates, gas units) become ℕ,
    with subtractions that may go negative carried out in ℤ, mirroring the
    source's signed comparisons such as `amount <= 0n`.
  - The variants that work in floating-point ETH (src/index.js, the sendETH
    function of part_004) are embedded over ℚ: the decimal arithmetic of the
    source (subtraction of the 0.0015 / 0.001 ETH reserve, `toFixed(6)`
    rounding) is modelled exactly, while the rounding of decimal literals to
    binary doubles is abstracted away; none of the statements below depends
    on that double rounding.
  - Chain I/O (balance queries, fee queries, submission, confirmation) is
    modelled by explicit oracles: each call site receives the outcome of the
    corresponding call as a parameter, and a thrown JavaScript error becomes
    the corresponding error branch of the embedded function.
-/

/-- Per-wallet recorded outcome: which of the three run counters
(success / failed / skipped) the wallet increments. -/
inductive Outcome where
  | success
  | failed
  | skipped
deriving DecidableEq, Repr

/-- A sweep decision: skip with a reason, or send a computed amount (wei). -/
inductive SweepDecision where
  | skipLowBalance
  | skipInsufficient
  | send (amount : ℤ)
deriving DecidableEq, Repr

namespace Part002

/-- Buffered gas cost from part_002 processWallet (line 140):
`gasEstimate * (feeData.maxFeePerGas || feeData.gasPrice) *
 BigInt(Math.floor(config.gasBuffer * 100)) / 100n`.
`gasEstimate` and the fee rate are BigInt; the buffer is scaled to an
integer percentage (`bufTimes100`, 120 for the configured 1.2) and the
final division is BigInt division, which truncates. -/
def gasCost (gasEstimate feeRate bufTimes100 : ℕ) : ℕ :=
  gasEstimate * feeRate * bufTimes100 / 100

/-- The sweep decision of part_002 processWallet (lines 121-149):
skip when `balance < minBalanceWei`; otherwise compute
`amount = balance - gasCost` and skip when `amount <= 0n`; otherwise send
`amount`.  This variant reserves nothing beyond the buffered fee cost
(reserve = 0). -/
def processWallet (minBalanceWei balance gasCostWei : ℕ) : SweepDecision :=
  if balance < minBalanceWei then
    SweepDecision.skipLowBalance
  else
    let amount : ℤ := (balance : ℤ) - (gasCostWei : ℤ)
    if amount ≤ 0 then SweepDecision.skipInsufficient
    else SweepDecision.send amount

end Part002

namespace Part001

/-- Per-wallet result of part_001 processWallet: the fee-data check can
throw, which the surrounding catch records as a failure. -/
inductive Result where
  | skipped
  | failedFeeData
  | send (amount : ℤ)
deriving DecidableEq, Repr

/-- The sweep decision of part_001 processWallet (lines 77-107): skip when
`balance < minBalanceWei`; throw (caught as Failed) when either fee field is
falsy; otherwise `gasCost = 21000n * feeData.maxFeePerGas * gasBuffer`,
`amount = balance - gasCost`, skip when `amount <= 0n`, else send `amount`.
The source writes the buffer factor as `* CONFIG.gasBuffer * 100n) / 100n`
with gasBuffer = 1.2; it is embedded as the integer scaling
`* 120 / 100` that the sibling variants (part_005 line 750, part_013
line 217) spell out as `BigInt(Math.floor(config.gasBuffer * 100)) / 100n`.
(As written, the source line would raise a TypeError for mixing BigInt and
Number, and the file has an unbalanced parenthesis on line 32; the
embedding follows the arithmetic the line denotes.) -/
def processWallet (minBalanceWei balance maxFeePerGas maxPriorityFeePerGas : ℕ) :
    Result :=
  if balance < minBalanceWei then
    Result.skipped
  else if maxFeePerGas = 0 ∨ maxPriorityFeePerGas = 0 then
    Result.failedFeeData
  else
    let gasCostWei : ℕ := 21000 * maxFeePerGas * 120 / 100
    let amount : ℤ := (balance : ℤ) - (gasCostWei : ℤ)
    if amount ≤ 0 then Result.skipped
    else Result.send amount

end Part001

namespace Part004

/-- Minimum balance of part_004 sendETH (line 104): 0.001 ETH. -/
def MIN_ETH : ℚ := 1 / 1000

/-- Recorded outcome of part_004 sendETH (lines 94-147), balance in ETH.
On `balance <= 0.001` the source logs "Skipping - insufficient balance" yet
increments the `failed` counter and pushes a "Failed" row (lines 104-107);
otherwise it sends `balance - 0.001` and records Success, and any thrown
error is recorded as Failed.  `sendOk` is the outcome of the submission. -/
def sendETH (balanceEth : ℚ) (sendOk : Bool) : Outcome :=
  if balanceEth ≤ MIN_ETH then Outcome.failed
  else if sendOk then Outcome.success
  else Outcome.failed

/-- Recorded outcome of the class-based processWallet in the same file
(part_004 lines 293-360), balance in wei: `balance <= 0n` records Skipped,
then `sendable = balance - estimatedGasFee`; `sendable <= 0n` records
Skipped; otherwise the send outcome decides Success or Failed. -/
def processWallet (balance estimatedGasFee : ℕ) (sendOk : Bool) : Outcome :=
  if balance ≤ 0 then Outcome.skipped
  else if (balance : ℤ) - (estimatedGasFee : ℤ) ≤ 0 then Outcome.skipped
  else if sendOk then Outcome.success
  else Outcome.failed

end Part004

namespace IndexJs

/-- MIN_BALANCE of src/index.js (line 16): 0.0015 ETH left in each wallet. -/
def MIN_BALANCE : ℚ := 15 / 10000

/-- The sweep decision of src/index.js processWallet (lines 215-231), over
the balance in ETH: skip when `currentBalance <= MIN_BALANCE` (lines
215-227), otherwise `transferAmount = currentBalance - MIN_BALANCE`
(line 230).  This variant reserves a fixed 0.0015 ETH and lets the fee be
paid out of the reserve. -/
inductive Decision where
  | skip
  | send (amountEth : ℚ)
deriving DecidableEq, Repr

/-- Decision of src/index.js processWallet lines 215-231. -/
def decide (balanceEth : ℚ) : Decision :=
  if balanceEth ≤ MIN_BALANCE then Decision.skip
  else Decision.send (balanceEth - MIN_BALANCE)

/-- `q.toFixed(6)` of a non-negative JavaScript number followed by
`ethers.parseEther`, as a map on exact ETH amounts: round to the nearest
multiple of 10⁻⁶ ETH, ties upward (ECMA-262 Number.prototype.toFixed picks
the larger integer on ties). -/
def toFixed6 (q : ℚ) : ℚ :=
  (⌊q * 1000000 + 1 / 2⌋ : ℚ) / 1000000

/-- Fee data returned by provider.getFeeData, as used by src/index.js. -/
structure FeeData where
  maxFeePerGas : ℕ
  maxPriorityFeePerGas : ℕ
deriving DecidableEq, Repr

/-- The transaction request built by src/index.js processWallet (lines
229-247): `value = ethers.parseEther(transferAmount.toFixed(6))` with
`transferAmount = currentBalance - MIN_BALANCE`, gasLimit 21000, and the
fetched fee rates doubled (`feeData.maxFeePerGas * 2n`, lines 235-236). -/
structure TxParams where
  valueEth : ℚ
  gasLimit : ℕ
  maxFeePerGas : ℕ
  maxPriorityFeePerGas : ℕ
deriving DecidableEq, Repr

/-- src/index.js lines 229-247: the request handed to
sendTransactionWithRetry for a wallet with `currentBalance > MIN_BALANCE`. -/
def buildTx (balanceEth : ℚ) (fee : FeeData) : TxParams :=
  { valueEth := toFixed6 (balanceEth - MIN_BALANCE)
    gasLimit := 21000
    maxFeePerGas := 2 * fee.maxFeePerGas
    maxPriorityFeePerGas := 2 * fee.maxPriorityFeePerGas }

/-- Environment of one wallet for a run of src/index.js: the outcome of each
chain call made while processing it.  `balanceEth = none` stands for a
balance query that still fails after its retries; `feeOk = false` for a
getFeeData call that throws; `sendOk = false` for a submission or
confirmation that fails (after its own retries). -/
structure AccountEnv where
  balanceEth : Option ℚ
  feeOk : Bool
  sendOk : Bool

/-- Recorded outcome of src/index.js processWallet (lines 203-287): a failed
balance query is caught and recorded Failed; a balance at or below
MIN_BALANCE records Skipped; then a failed fee query or a failed
submission/confirmation is caught and recorded Failed; otherwise Success.
Exactly one counter is incremented on every path. -/
def processWallet (e : AccountEnv) : Outcome :=
  match e.balanceEth with
  | none => Outcome.failed
  | some b =>
    if b ≤ MIN_BALANCE then Outcome.skipped
    else if e.feeOk = false then Outcome.failed
    else if e.sendOk then Outcome.success
    else Outcome.failed

/-- The run counters of src/index.js (`this.stats`, lines 22-27). -/
structure Stats where
  processed : ℕ
  success : ℕ
  failed : ℕ
  skipped : ℕ
deriving DecidableEq, Repr

/-- One iteration of the wallet loop (src/index.js lines 361-368 together
with the counter increments inside processWallet): `processed` is always
incremented, and exactly one of the three outcome counters. -/
def step (s : Stats) (e : AccountEnv) : Stats :=
  let s := { s with processed := s.processed + 1 }
  match processWallet e with
  | Outcome.success => { s with success := s.success + 1 }
  | Outcome.failed => { s with failed := s.failed + 1 }
  | Outcome.skipped => { s with skipped := s.skipped + 1 }

/-- The wallet loop of src/index.js run (lines 361-368), starting from the
zeroed stats of the constructor. -/
def runLoop (envs : List AccountEnv) : Stats :=
  envs.foldl step { processed := 0, success := 0, failed := 0, skipped := 0 }

/-- Result of src/index.js run (lines 339-388): a fatal pre-loop failure
(connect or loadConfig throwing) lands in the catch, or the loop completes
and the final report is printed with the accumulated stats. -/
inductive RunResult where
  | fatal
  | completed (stats : Stats)
deriving DecidableEq, Repr

/-- src/index.js run (lines 339-388): phase 1 connect, phase 2 loadConfig —
each failure is rethrown to the outer catch, which sets
`process.exitCode = 1` — then the wallet loop and the final report.  The
second component is the process exit code the run leaves behind (0 unless
the catch ran). -/
def run (connectOk configOk : Bool) (envs : List AccountEnv) :
    RunResult × ℕ :=
  if connectOk = false then (RunResult.fatal, 1)
  else if configOk = false then (RunResult.fatal, 1)
  else (RunResult.completed (runLoop envs), 0)

/-- Outcome of one sendTransaction/wait attempt inside
sendTransactionWithRetry: success, a transient error, or an error whose
`code` is "INSUFFICIENT_FUNDS". -/
inductive AttemptResult where
  | ok
  | transientErr
  | insufficientFunds
deriving DecidableEq, Repr

/-- Observable trace of one …WithRetry call: how many attempts were made,
the sleeps performed between attempts (ms), whether the call returned
normally, and whether it threw by propagating an insufficient-funds error
from the no-retry branch. -/
structure RetryTrace where
  attempts : ℕ
  delays : List ℕ
  ok : Bool
  threwInsufficient : Bool
deriving DecidableEq, Repr

/-- The loop body of src/index.js sendTransactionWithRetry (lines 178-201),
mirroring `for (let i = 0; i < retries; i++)`: `i` is the current index and
the second argument the number of remaining iterations (`retries - i`).  On
an error with `i < retries - 1`, an INSUFFICIENT_FUNDS code is rethrown at
once (no retry, line 192-194); any other error sleeps `2000 * (i + 1)` ms
and retries.  Exhausting the loop throws the summary error. -/
def sendTxGo (oracle : ℕ → AttemptResult) (i : ℕ) : ℕ → RetryTrace
  | 0 => { attempts := 0, delays := [], ok := false, threwInsufficient := false }
  | n + 1 =>
    match oracle i with
    | AttemptResult.ok =>
      { attempts := 1, delays := [], ok := true, threwInsufficient := false }
    | AttemptResult.insufficientFunds =>
      if n = 0 then
        { attempts := 1, delays := [], ok := false, threwInsufficient := false }
      else
        { attempts := 1, delays := [], ok := false, threwInsufficient := true }
    | AttemptResult.transientErr =>
      if n = 0 then
        { attempts := 1, delays := [], ok := false, threwInsufficient := false }
      else
        let rest := sendTxGo oracle (i + 1) n
        { attempts := rest.attempts + 1
          delays := 2000 * (i + 1) :: rest.delays
          ok := rest.ok
          threwInsufficient := rest.threwInsufficient }

/-- src/index.js sendTransactionWithRetry with the default
`retries = this.MAX_RETRIES = 3`; `oracle i` is the outcome of attempt `i`. -/
def sendTransactionWithRetry (oracle : ℕ → AttemptResult) : RetryTrace :=
  sendTxGo oracle 0 3

/-- The loop body of src/index.js getBalanceWithRetry (lines 158-176):
`oracle i` tells whether attempt `i` of provider.getBalance succeeds; a
failed attempt with `i < retries - 1` sleeps `1000 * (i + 1)` ms and
retries; exhausting the loop throws. -/
def getBalanceGo (oracle : ℕ → Bool) (i : ℕ) : ℕ → RetryTrace
  | 0 => { attempts := 0, delays := [], ok := false, threwInsufficient := false }
  | n + 1 =>
    if oracle i then
      { attempts := 1, delays := [], ok := true, threwInsufficient := false }
    else if n = 0 then
      { attempts := 1, delays := [], ok := false, threwInsufficient := false }
    else
      let rest := getBalanceGo oracle (i + 1) n
      { attempts := rest.attempts + 1
        delays := 1000 * (i + 1) :: rest.delays
        ok := rest.ok
        threwInsufficient := rest.threwInsufficient }

/-- src/index.js getBalanceWithRetry with the default `retries = 3`. -/
def getBalanceWithRetry (oracle : ℕ → Bool) : RetryTrace :=
  getBalanceGo oracle 0 3

/-- The configuration loaded by src/index.js loadConfig. -/
structure Config where
  targetAddress : String
  privateKeys : List String
deriving DecidableEq, Repr

/-- src/index.js loadConfig (lines 104-143), with the two external format
checks of the ethers library as parameters: `isAddress` is
ethers.isAddress, `walletOk` tells whether `new ethers.Wallet(key)`
succeeds.  The trimmed target must pass `isAddress`; the trimmed non-empty
key lines must be non-empty as a list and each must pass `walletOk`.  No
check relates any key to the target address. -/
def loadConfig (isAddress walletOk : String → Bool)
    (targetLine : String) (keyLines : List String) : Option Config :=
  if isAddress targetLine = false then none
  else
    let keys := keyLines.filter (fun l => l ≠ "")
    if keys = [] then none
    else if keys.all walletOk then some { targetAddress := targetLine, privateKeys := keys }
    else none

/-- The sender addresses for which the run of src/index.js reaches the
sendTransactionWithRetry call (lines 203-247 within the loop of lines
361-368): every loaded key is processed; the wallet address derived from
the key (`addrOf`) is the sender whenever its balance query succeeds with
more than MIN_BALANCE and getFeeData succeeds.  No key is excluded by its
address. -/
def attemptedSenders (addrOf : String → String) (balanceOf : String → ℚ)
    (feeOk : String → Bool) (cfg : Config) : List String :=
  (cfg.privateKeys.map addrOf).filter
    (fun a => if MIN_BALANCE < balanceOf a then feeOk a else false)

end IndexJs

/-- A concrete attempt oracle used to instantiate the retry theorem: the
first submission attempt fails transiently, every later one fails with an
INSUFFICIENT_FUNDS code. -/
def c6oracle : ℕ → IndexJs.AttemptResult :=
  fun n =>
    if n = 0 then IndexJs.AttemptResult.transientErr
    else IndexJs.AttemptResult.insufficientFunds

/-! ## Helper lemmas -/

/-- One loop iteration increments `processed` and exactly one outcome
counter. -/
theorem step_counts (s : IndexJs.Stats) (e : IndexJs.AccountEnv) :
    (IndexJs.step s e).processed = s.processed + 1 ∧
    (IndexJs.step s e).success + (IndexJs.step s e).failed + (IndexJs.step s e).skipped
      = s.success + s.failed + s.skipped + 1 := by
  unfold IndexJs.step
  cases IndexJs.processWallet e <;> simp <;> omega

/-- Folding the loop body over any environment list adds the list length to
`processed` and to the sum of the three outcome counters. -/
theorem foldl_step_counts (envs : List IndexJs.AccountEnv) :
    ∀ s : IndexJs.Stats,
      (envs.foldl IndexJs.step s).processed = s.processed + envs.length ∧
      (envs.foldl IndexJs.step s).success + (envs.foldl IndexJs.step s).failed +
          (envs.foldl IndexJs.step s).skipped
        = s.success + s.failed + s.skipped + envs.length := by
  induction envs with
  | nil => intro s; simp
  | cons e es ih =>
    intro s
    simp only [List.foldl_cons, List.length_cons]
    obtain ⟨h1, h2⟩ := ih (IndexJs.step s e)
    obtain ⟨g1, g2⟩ := step_counts s e
    omega

/-- The wallet loop of src/index.js processes every account and records one
outcome per account. -/
theorem runLoop_counts (envs : List IndexJs.AccountEnv) :
    (IndexJs.runLoop envs).processed = envs.length ∧
    (IndexJs.runLoop envs).success + (IndexJs.runLoop envs).failed +
        (IndexJs.runLoop envs).skipped = envs.length := by
  have h := foldl_step_counts envs { processed := 0, success := 0, failed := 0, skipped := 0 }
  simp only [IndexJs.runLoop]
  simp at h
  omega

/-- At most `fuel` submission attempts are made. -/
theorem sendTxGo_attempts_le (oracle : ℕ → IndexJs.AttemptResult) :
    ∀ fuel i, (IndexJs.sendTxGo oracle i fuel).attempts ≤ fuel := by
  intro fuel
  induction fuel with
  | zero => intro i; simp [IndexJs.sendTxGo]
  | succ n ih =>
    intro i
    simp only [IndexJs.sendTxGo]
    cases h : oracle i with
    | ok => simp
    | insufficientFunds => by_cases hn : n = 0 <;> simp [hn]
    | transientErr =>
      by_cases hn : n = 0
      · simp [hn]
      · simp only [hn, if_neg (by omega : ¬ n = 0)]
        show (IndexJs.sendTxGo oracle (i + 1) n).attempts + 1 ≤ n + 1
        have := ih (i + 1)
        omega

/-- The sleeps of the submission retry loop are strictly increasing, and
the sleep after the attempt at index `i` is at least `2000 * (i + 1)` ms. -/
theorem sendTxGo_delays_chain (oracle : ℕ → IndexJs.AttemptResult) :
    ∀ fuel i, List.Chain' (fun x y => x < y) ((IndexJs.sendTxGo oracle i fuel).delays) ∧
      (∀ d ∈ (IndexJs.sendTxGo oracle i fuel).delays, 2000 * (i + 1) ≤ d) := by
  intro fuel
  induction fuel with
  | zero => intro i; simp [IndexJs.sendTxGo]
  | succ n ih =>
    intro i
    simp only [IndexJs.sendTxGo]
    cases h : oracle i with
    | ok => simp
    | insufficientFunds => by_cases hn : n = 0 <;> simp [hn]
    | transientErr =>
      by_cases hn : n = 0
      · simp [hn]
      · obtain ⟨hc, hb⟩ := ih (i + 1)
        simp only [hn, if_neg (by omega : ¬ n = 0)]
        constructor
        · refine List.chain'_cons'.mpr ⟨?_, hc⟩
          intro y hy
          have := hb y (List.mem_of_mem_head? hy)
          omega
        · intro d hd
          rcases List.mem_cons.mp hd with h1 | h2
          · omega
          · have := hb d h2
            omega

/-- If the attempt at offset `k` hits INSUFFICIENT_FUNDS after `k` transient
failures, the loop makes exactly `k + 1` attempts and does not return
normally. -/
theorem sendTxGo_insufficient_stops (oracle : ℕ → IndexJs.AttemptResult) :
    ∀ k fuel i, k + 1 ≤ fuel →
      oracle (i + k) = IndexJs.AttemptResult.insufficientFunds →
      (∀ j, j < k → oracle (i + j) = IndexJs.AttemptResult.transientErr) →
      (IndexJs.sendTxGo oracle i fuel).attempts = k + 1 ∧
        (IndexJs.sendTxGo oracle i fuel).ok = false := by
  intro k
  induction k with
  | zero =>
    intro fuel i hfuel h0 _
    obtain ⟨n, rfl⟩ : ∃ n, fuel = n + 1 := ⟨fuel - 1, by omega⟩
    simp only [Nat.add_zero] at h0
    simp only [IndexJs.sendTxGo, h0]
    by_cases hn : n = 0 <;> simp [hn]
  | succ m ih =>
    intro fuel i hfuel hk hprev
    obtain ⟨n, rfl⟩ : ∃ n, fuel = n + 1 := ⟨fuel - 1, by omega⟩
    have h0 : oracle i = IndexJs.AttemptResult.transientErr := by
      have := hprev 0 (by omega)
      simpa using this
    have hn : ¬ n = 0 := by omega
    simp only [IndexJs.sendTxGo, h0, if_neg hn]
    have hrec := ih n (i + 1) (by omega)
      (by rw [show i + 1 + m = i + (m + 1) by omega]; exact hk)
      (fun j hj => by
        rw [show i + 1 + j = i + (j + 1) by omega]
        exact hprev (j + 1) (by omega))
    constructor
    · show (IndexJs.sendTxGo oracle (i + 1) n).attempts + 1 = m + 1 + 1
      omega
    · show (IndexJs.sendTxGo oracle (i + 1) n).ok = false
      exact hrec.2

/-- At most `fuel` balance-query attempts are made. -/
theorem getBalanceGo_attempts_le (oracle : ℕ → Bool) :
    ∀ fuel i, (IndexJs.getBalanceGo oracle i fuel).attempts ≤ fuel := by
  intro fuel
  induction fuel with
  | zero => intro i; simp [IndexJs.getBalanceGo]
  | succ n ih =>
    intro i
    simp only [IndexJs.getBalanceGo]
    by_cases h : oracle i
    · simp [h]
    · by_cases hn : n = 0
      · simp [h, hn]
      · rw [if_neg h, if_neg hn]
        show (IndexJs.getBalanceGo oracle (i + 1) n).attempts + 1 ≤ n + 1
        have := ih (i + 1)
        omega

/-- The sleeps of the balance retry loop are strictly increasing, and the
sleep after the attempt at index `i` is at least `1000 * (i + 1)` ms. -/
theorem getBalanceGo_delays_chain (oracle : ℕ → Bool) :
    ∀ fuel i, List.Chain' (fun x y => x < y) ((IndexJs.getBalanceGo oracle i fuel).delays) ∧
      (∀ d ∈ (IndexJs.getBalanceGo oracle i fuel).delays, 1000 * (i + 1) ≤ d) := by
  intro fuel
  induction fuel with
  | zero => intro i; simp [IndexJs.getBalanceGo]
  | succ n ih =>
    intro i
    simp only [IndexJs.getBalanceGo]
    by_cases h : oracle i
    · simp [h]
    · by_cases hn : n = 0
      · simp [h, hn]
      · obtain ⟨hc, hb⟩ := ih (i + 1)
        rw [if_neg h, if_neg hn]
        constructor
        · refine List.chain'_cons'.mpr ⟨?_, hc⟩
          intro y hy
          have := hb y (List.mem_of_mem_head? hy)
          omega
        · intro d hd
          rcases List.mem_cons.mp hd with h1 | h2
          · omega
          · have := hb d h2
            omega

/-! ## Claim theorems -/

/-- C1: For every non-negative balance, fee estimate and threshold, the
sweep decision of the cited variants (which reserve nothing beyond the
buffered fee cost, so reserve = 0) returns Skip when the balance is below
the minimum-balance-to-process threshold; otherwise Skip when
balance - bufferedFeeCost <= 0; otherwise Send with amount exactly
balance - bufferedFeeCost. -/
theorem c1_sweep_decision_cases (minBalanceWei balance gasEstimate feeRate bufTimes100 : ℕ) :
    (balance < minBalanceWei →
      Part002.processWallet minBalanceWei balance
          (Part002.gasCost gasEstimate feeRate bufTimes100) =
        SweepDecision.skipLowBalance)
    ∧ (minBalanceWei ≤ balance →
        (balance : ℤ) - (Part002.gasCost gasEstimate feeRate bufTimes100 : ℤ) ≤ 0 →
        Part002.processWallet minBalanceWei balance
            (Part002.gasCost gasEstimate feeRate bufTimes100) =
          SweepDecision.skipInsufficient)
    ∧ (minBalanceWei ≤ balance →
        0 < (balance : ℤ) - (Part002.gasCost gasEstimate feeRate bufTimes100 : ℤ) →
        Part002.processWallet minBalanceWei balance
            (Part002.gasCost gasEstimate feeRate bufTimes100) =
          SweepDecision.send
            ((balance : ℤ) - (Part002.gasCost gasEstimate feeRate bufTimes100 : ℤ))) := by
  refine ⟨fun h => ?_, fun h1 h2 => ?_, fun h1 h2 => ?_⟩ <;>
    simp only [Part002.processWallet]
  · rw [if_pos h]
  · rw [if_neg (by omega), if_pos h2]
  · rw [if_neg (by omega), if_neg (by omega)]

/-- Witness for C1: a wallet of 5 wei, threshold 2 wei and buffered fee
cost 1 wei is decided Send(4). -/
theorem c1_witness :
    Part002.processWallet 2 5 (Part002.gasCost 1 1 100) = SweepDecision.send 4 := by
  have h := (c1_sweep_decision_cases 2 5 1 1 100).2.2 (by norm_num) (by decide)
  rw [h]
  decide

/-- C2: whenever the cited decision procedures return Send(amount), the
amount is strictly positive and strictly below the balance (part_001:
fee rates are checked non-zero before the send path; src/index.js: the
fixed 0.0015 ETH reserve is positive). -/
theorem c2_send_amount_bounds :
    (∀ minBalanceWei balance maxFeePerGas maxPriorityFeePerGas : ℕ, ∀ amount : ℤ,
        Part001.processWallet minBalanceWei balance maxFeePerGas maxPriorityFeePerGas =
          Part001.Result.send amount →
        0 < amount ∧ amount < (balance : ℤ))
    ∧ (∀ balanceEth amountEth : ℚ,
        IndexJs.decide balanceEth = IndexJs.Decision.send amountEth →
        0 < amountEth ∧ amountEth < balanceEth) := by
  constructor
  · intro minB bal f p a h
    simp only [Part001.processWallet] at h
    split at h
    · exact absurd h (by simp)
    split at h
    · exact absurd h (by simp)
    split at h
    · exact absurd h (by simp)
    rename_i hmin hfee hpos
    have ha : a = (bal : ℤ) - ((21000 * f * 120 / 100 : ℕ) : ℤ) := by
      injection h with h2
      omega
    have hf : f ≠ 0 := by tauto
    have hgc : (21000 * f * 120) / 100 = 25200 * f := by
      rw [show 21000 * f * 120 = 25200 * f * 100 by ring]
      exact Nat.mul_div_cancel _ (by norm_num)
    rw [hgc] at ha hpos
    have hfpos : 0 < 25200 * f := by positivity
    exact ⟨by omega, by omega⟩
  · intro b a h
    unfold IndexJs.decide at h
    split at h
    · exact absurd h (by simp)
    rename_i hgt
    injection h with h2
    have hmin : (0 : ℚ) < IndexJs.MIN_BALANCE := by norm_num [IndexJs.MIN_BALANCE]
    push_neg at hgt
    exact ⟨by rw [← h2]; linarith, by rw [← h2]; linarith⟩

/-- Witness for C2: concrete Send decisions of both variants with their
amount bounds. -/
theorem c2_witness :
    (0 < (74800 : ℤ) ∧ (74800 : ℤ) < ((100000 : ℕ) : ℤ))
    ∧ (0 < (1 : ℚ) - IndexJs.MIN_BALANCE ∧ (1 : ℚ) - IndexJs.MIN_BALANCE < 1) := by
  constructor
  · exact c2_send_amount_bounds.1 10 100000 1 1 74800 (by decide)
  · exact c2_send_amount_bounds.2 1 (1 - IndexJs.MIN_BALANCE)
      (by unfold IndexJs.decide; rw [if_neg (by norm_num [IndexJs.MIN_BALANCE])])

/-- C3: a run over N accounts processes each exactly once and records
exactly one outcome per account, so succeeded + failed + skipped = N. -/
theorem c3_outcome_accounting (envs : List IndexJs.AccountEnv) :
    (IndexJs.runLoop envs).processed = envs.length ∧
    (IndexJs.runLoop envs).success + (IndexJs.runLoop envs).failed +
        (IndexJs.runLoop envs).skipped = envs.length :=
  runLoop_counts envs

/-- C4: a per-account failure of the balance query, the fee query or the
submission/confirmation is recorded as Failed for that account; whenever
connect and loadConfig succeed the loop runs to completion over all
accounts and the final summary is produced with exit code 0; a non-zero
exit code arises exactly from the pre-loop connect/loadConfig failures. -/
theorem c4_error_containment (connectOk configOk : Bool) (envs : List IndexJs.AccountEnv) :
    ((IndexJs.run connectOk configOk envs).2 ≠ 0 ↔ connectOk = false ∨ configOk = false)
    ∧ (connectOk = true → configOk = true →
        (IndexJs.run connectOk configOk envs).1 =
          IndexJs.RunResult.completed (IndexJs.runLoop envs))
    ∧ (∀ e : IndexJs.AccountEnv, e.balanceEth = none →
        IndexJs.processWallet e = Outcome.failed)
    ∧ (∀ (e : IndexJs.AccountEnv) (b : ℚ), e.balanceEth = some b →
        IndexJs.MIN_BALANCE < b → (e.feeOk = false ∨ e.sendOk = false) →
        IndexJs.processWallet e = Outcome.failed)
    ∧ (IndexJs.runLoop envs).success + (IndexJs.runLoop envs).failed +
        (IndexJs.runLoop envs).skipped = envs.length := by
  refine ⟨?_, ?_, ?_, ?_, (runLoop_counts envs).2⟩
  · unfold IndexJs.run
    cases connectOk <;> cases configOk <;> simp
  · intro hc hg
    unfold IndexJs.run
    simp [hc, hg]
  · intro e he
    simp [IndexJs.processWallet, he]
  · intro e b he hb hfail
    have hb2 : ¬ b ≤ IndexJs.MIN_BALANCE := not_le.mpr hb
    rcases hfail with h | h
    · simp [IndexJs.processWallet, he, hb2, h]
    · cases hfb : e.feeOk
      · simp [IndexJs.processWallet, he, hb2, hfb]
      · simp [IndexJs.processWallet, he, hb2, hfb, h]

/-- Witness for C4: a run whose single account has a failing balance query
still completes with a summary, and that account is recorded Failed. -/
theorem c4_witness :
    (IndexJs.run true true [{ balanceEth := none, feeOk := true, sendOk := true }]).1
      = IndexJs.RunResult.completed
          (IndexJs.runLoop [{ balanceEth := none, feeOk := true, sendOk := true }])
    ∧ IndexJs.processWallet { balanceEth := none, feeOk := true, sendOk := true }
      = Outcome.failed := by
  constructor
  · exact (c4_error_containment true true
      [{ balanceEth := none, feeOk := true, sendOk := true }]).2.1 rfl rfl
  · exact (c4_error_containment true true []).2.2.1
      { balanceEth := none, feeOk := true, sendOk := true } rfl

/-- C5 (code evaluated at the failing input): in part_004, sendETH records
an account with balance 0 ETH (and any balance at or below the 0.001 ETH
minimum) in the failed counter with a "Failed" row — while the class-based
processWallet of the very same file records a zero-balance account as
Skipped, as the claim requires. -/
theorem c5_low_balance_recorded_failed :
    Part004.sendETH 0 true = Outcome.failed
    ∧ Part004.sendETH 0 false = Outcome.failed
    ∧ Part004.processWallet 0 0 true = Outcome.skipped := by
  refine ⟨?_, ?_, ?_⟩
  · simp [Part004.sendETH, Part004.MIN_ETH]
  · simp [Part004.sendETH, Part004.MIN_ETH]
  · simp [Part004.processWallet]

/-- C6: both retry helpers of src/index.js make at most 3 attempts, with
strictly increasing sleeps between attempts, and a submission attempt that
fails with INSUFFICIENT_FUNDS is never retried: the call stops at that
attempt without returning normally. -/
theorem c6_retry_bounds (oracle : ℕ → IndexJs.AttemptResult) (bOracle : ℕ → Bool) :
    (IndexJs.sendTransactionWithRetry oracle).attempts ≤ 3
    ∧ (IndexJs.getBalanceWithRetry bOracle).attempts ≤ 3
    ∧ List.Chain' (fun x y => x < y) (IndexJs.sendTransactionWithRetry oracle).delays
    ∧ List.Chain' (fun x y => x < y) (IndexJs.getBalanceWithRetry bOracle).delays
    ∧ (∀ k, k < 3 → oracle k = IndexJs.AttemptResult.insufficientFunds →
        (∀ j, j < k → oracle j = IndexJs.AttemptResult.transientErr) →
        (IndexJs.sendTransactionWithRetry oracle).attempts = k + 1
        ∧ (IndexJs.sendTransactionWithRetry oracle).ok = false) := by
  refine ⟨sendTxGo_attempts_le oracle 3 0, getBalanceGo_attempts_le bOracle 3 0,
    (sendTxGo_delays_chain oracle 3 0).1, (getBalanceGo_delays_chain bOracle 3 0).1,
    fun k hk h0 hprev => ?_⟩
  exact sendTxGo_insufficient_stops oracle k 3 0 (by omega)
    (by simpa using h0) (fun j hj => by simpa using hprev j hj)

/-- Witness for C6: with a transient failure followed by an
insufficient-funds failure, exactly 2 attempts are made and the call does
not return normally. -/
theorem c6_witness :
    (IndexJs.sendTransactionWithRetry c6oracle).attempts = 2
    ∧ (IndexJs.sendTransactionWithRetry c6oracle).ok = false := by
  exact (c6_retry_bounds c6oracle (fun _ => true)).2.2.2.2 1 (by omega) (by rfl)
    (fun j hj => by
      interval_cases j
      rfl)

/-- C7: holding the fee estimate fixed, if the part_001 decision for a
balance b1 is Send(a1) then the decision for any b2 ≥ b1 is Send with
amount a1 + (b2 - b1). -/
theorem c7_balance_monotonicity
    (minBalanceWei b1 b2 maxFeePerGas maxPriorityFeePerGas : ℕ) (a1 : ℤ)
    (hle : b1 ≤ b2)
    (h1 : Part001.processWallet minBalanceWei b1 maxFeePerGas maxPriorityFeePerGas =
      Part001.Result.send a1) :
    Part001.processWallet minBalanceWei b2 maxFeePerGas maxPriorityFeePerGas =
      Part001.Result.send (a1 + ((b2 : ℤ) - (b1 : ℤ))) := by
  simp only [Part001.processWallet] at h1 ⊢
  split at h1
  · exact absurd h1 (by simp)
  split at h1
  · exact absurd h1 (by simp)
  split at h1
  · exact absurd h1 (by simp)
  rename_i hmin hfee hpos
  injection h1 with ha
  rw [if_neg (by omega), if_neg (by omega), if_neg (by omega)]
  congr 1
  omega

/-- Witness for C7: a wallet of 100000 wei is decided Send(74800), so a
wallet of 100001 wei is decided Send(74801). -/
theorem c7_witness :
    Part001.processWallet 10 100001 1 1 = Part001.Result.send 74801 := by
  have h := c7_balance_monotonicity 10 100000 100001 1 1 74800 (by omega) (by decide)
  rw [h]
  decide

/-- C8 counterexample: for gas estimate 21001, fee rate 1 and buffer 1.2
(scaled to 120), the exact buffered fee cost is 25201.2 wei but the code
computes 25201 — strictly below the exact value, so the buffered fee cost
was rounded down, not up. -/
theorem c8_counterexample :
    Part002.gasCost 21001 1 120 = 25201
    ∧ 100 * Part002.gasCost 21001 1 120 < 21001 * 1 * 120 := by
  constructor <;> decide

/-- C8 as amended: the buffered fee cost is the floor of
gasEstimate × feeRate × buffer — BigInt division truncates, so the result
never exceeds the exact buffered cost and is strictly below it whenever
100 does not divide the scaled product. -/
theorem c8_buffered_fee_rounds_down (gasEstimate feeRate bufTimes100 : ℕ) :
    100 * Part002.gasCost gasEstimate feeRate bufTimes100
        ≤ gasEstimate * feeRate * bufTimes100
    ∧ gasEstimate * feeRate * bufTimes100
        < 100 * (Part002.gasCost gasEstimate feeRate bufTimes100 + 1) := by
  unfold Part002.gasCost
  have h := Nat.div_add_mod (gasEstimate * feeRate * bufTimes100) 100
  have h2 : (gasEstimate * feeRate * bufTimes100) % 100 < 100 :=
    Nat.mod_lt _ (by norm_num)
  omega

/-- C9 counterexample: a configuration whose single key derives the
destination address itself passes loadConfig unchanged, and the run then
attempts a sweep whose sender equals the destination. -/
theorem c9_counterexample :
    IndexJs.loadConfig (fun s => s == "0xD") (fun _ => true) "0xD" ["k1"]
      = some { targetAddress := "0xD", privateKeys := ["k1"] }
    ∧ "0xD" ∈ IndexJs.attemptedSenders (fun _ => "0xD") (fun _ => 1) (fun _ => true)
        { targetAddress := "0xD", privateKeys := ["k1"] } := by
  constructor
  · simp [IndexJs.loadConfig]
  · simp [IndexJs.attemptedSenders, IndexJs.MIN_BALANCE]
    norm_num

/-- C9 as amended: the loader validates the destination's format and each
key's format independently and never compares a key's derived address with
the destination, so any loaded key whose derived address equals the
destination is processed like any other: when its balance exceeds the
minimum and the fee query succeeds, a sweep from the destination address is
attempted. -/
theorem c9_no_destination_exclusion (addrOf : String → String) (balanceOf : String → ℚ)
    (feeOk : String → Bool) (cfg : IndexJs.Config) (k : String)
    (hk : k ∈ cfg.privateKeys) (haddr : addrOf k = cfg.targetAddress)
    (hbal : IndexJs.MIN_BALANCE < balanceOf (addrOf k))
    (hfee : feeOk (addrOf k) = true) :
    cfg.targetAddress ∈ IndexJs.attemptedSenders addrOf balanceOf feeOk cfg := by
  rw [← haddr]
  unfold IndexJs.attemptedSenders
  refine List.mem_filter.mpr ⟨List.mem_map_of_mem addrOf hk, ?_⟩
  simp [hbal, hfee]

/-- Witness for C9: the concrete self-sweep configuration of the
counterexample, reached through the amended theorem. -/
theorem c9_witness :
    ("0xD" : String) ∈ IndexJs.attemptedSenders (fun _ => "0xD") (fun _ => 1)
      (fun _ => true) { targetAddress := "0xD", privateKeys := ["k1"] } := by
  exact c9_no_destination_exclusion (fun _ => "0xD") (fun _ => 1) (fun _ => true)
    { targetAddress := "0xD", privateKeys := ["k1"] } "k1"
    (by simp) rfl (by norm_num [IndexJs.MIN_BALANCE]) rfl

/-- C10 counterexample: for a balance of 1600000000000001 wei
(0.001600000000000001 ETH, above the 0.0015 minimum) the submitted value is
0.0001 ETH — the 6-decimal toFixed rounding — which differs from the exact
balance - 0.0015. -/
theorem c10_counterexample :
    IndexJs.MIN_BALANCE < (1600000000000001 / 1000000000000000000 : ℚ)
    ∧ (IndexJs.buildTx (1600000000000001 / 1000000000000000000)
        { maxFeePerGas := 0, maxPriorityFeePerGas := 0 }).valueEth
      ≠ (1600000000000001 / 1000000000000000000 : ℚ) - IndexJs.MIN_BALANCE := by
  constructor
  · norm_num [IndexJs.MIN_BALANCE]
  · norm_num [IndexJs.buildTx, IndexJs.toFixed6, IndexJs.MIN_BALANCE]

/-- C10 as amended: for every balance above the 0.0015 ETH minimum the
decision is Send(balance - 0.0015), and the submitted transaction value is
(balance - 0.0015) rounded to 6 decimal places, identical across
executions with different fee data — the fee estimate only affects the
doubled fee-rate fields, never the value. -/
theorem c10_value_independent_of_fees (b : ℚ) (f1 f2 : IndexJs.FeeData)
    (hb : IndexJs.MIN_BALANCE < b) :
    IndexJs.decide b = IndexJs.Decision.send (b - IndexJs.MIN_BALANCE)
    ∧ (IndexJs.buildTx b f1).valueEth = (IndexJs.buildTx b f2).valueEth
    ∧ (IndexJs.buildTx b f1).valueEth = IndexJs.toFixed6 (b - IndexJs.MIN_BALANCE) := by
  refine ⟨?_, rfl, rfl⟩
  unfold IndexJs.decide
  rw [if_neg (not_le.mpr hb)]

/-- Witness for C10: a balance of 1 ETH with two different fee estimates
yields the same submitted value, the rounded 0.9985 ETH. -/
theorem c10_witness :
    IndexJs.decide 1 = IndexJs.Decision.send (1 - IndexJs.MIN_BALANCE)
    ∧ (IndexJs.buildTx 1 { maxFeePerGas := 1, maxPriorityFeePerGas := 2 }).valueEth
      = (IndexJs.buildTx 1 { maxFeePerGas := 3, maxPriorityFeePerGas := 4 }).valueEth
    ∧ (IndexJs.buildTx 1 { maxFeePerGas := 1, maxPriorityFeePerGas := 2 }).valueEth
      = IndexJs.toFixed6 (1 - IndexJs.MIN_BALANCE) :=
  c10_value_independent_of_fees 1
    { maxFeePerGas := 1, maxPriorityFeePerGas := 2 }
    { maxFeePerGas := 3, maxPriorityFeePerGas := 4 }
    (by norm_num [IndexJs.MIN_BALANCE])
